import Mathlib

/-
Verification of the extraction pipeline of an Amazon price/seller scraper
(src/app.py).  The pipeline is embedded shallowly: the parsed HTML document
is an abstract queryable tree (the code only uses "select one node",
"select all nodes", "find span by class", "get text", "get href"), the two
network fetches are external collaborators modelled as functions returning
an optional document, prices are exact rationals, and every regular
expression used by the code is translated into an explicit matcher with
Python backtracking semantics (leftmost position, greedy/lazy quantifier
order as written in the source pattern).
-/

namespace PriceApp

/-! ### Character and list utilities (ASCII fragment used by the source) -/

/-- Python regex class \s restricted to ASCII, as used by str.strip and the
patterns in src/app.py. -/
def isSpaceC (c : Char) : Bool :=
  c = ' ' || c = '\t' || c = '\n' || c = '\r' || c = '\x0b' || c = '\x0c'

/-- ASCII lower-casing of one character (Python str.lower on the ASCII
strings the code compares). -/
def lowChar (c : Char) : Char :=
  if 'A' ≤ c && c ≤ 'Z' then Char.ofNat (c.toNat + 32) else c

/-- Lower-case a character list. -/
def lowerL (l : List Char) : List Char := l.map lowChar

/-- Python str.strip(): drop leading and trailing whitespace. -/
def stripL (l : List Char) : List Char :=
  ((l.dropWhile isSpaceC).reverse.dropWhile isSpaceC).reverse

/-- Boolean prefix test on character lists. -/
def isPrefOf : List Char → List Char → Bool
  | [], _ => true
  | _ :: _, [] => false
  | a :: as, b :: bs => a = b && isPrefOf as bs

/-- Case-insensitive prefix test (used for re.IGNORECASE literals). -/
def ciPref : List Char → List Char → Bool
  | [], _ => true
  | _ :: _, [] => false
  | a :: as, b :: bs => lowChar a = lowChar b && ciPref as bs

/-- Python substring test `needle in hay` (exact, case-sensitive). -/
def hasSub (hay needle : List Char) : Bool :=
  match hay with
  | [] => isPrefOf needle []
  | _ :: t => isPrefOf needle hay || hasSub t needle

/-! ### Price normalizer: clean_price (src/app.py lines 55-91)

The two Method-1 regexes, the Method-2 findall and the dollar-amount
regex of the offers page are modelled as explicit leftmost-search
backtracking matchers. -/

/-- Result of clean_price: a float (exact rational here), the trimmed
original text, or Python None. -/
inductive PriceResult where
  | num (q : ℚ)
  | txt (s : String)
  | nil
deriving DecidableEq, Repr

/-- Exactly k leading digits: returns (digits, rest); models a greedy
\d{1,k} attempt at width k. -/
def grpDigits (k : Nat) (l : List Char) : Option (List Char × List Char) :=
  let d := l.take k
  if d.length = k && d.all Char.isDigit then some (d, l.drop k) else none

/-- Matcher for the tail \.\d{2} of pattern r'\$?(\d{1,3}(?:,\d{3})*\.\d{2})'. -/
def fracTail : List Char → Option (List Char)
  | '.' :: a :: b :: _ => if a.isDigit && b.isDigit then some ['.', a, b] else none
  | _ => none

/-- Greedy (?:,\d{3})* followed by \.\d{2}, with full backtracking:
extending the star is preferred, and on failure the star gives back one
repetition at a time. Returns the consumed characters. -/
def starThenFrac : List Char → Option (List Char)
  | ',' :: a :: b :: c :: rest =>
    if a.isDigit && b.isDigit && c.isDigit then
      match starThenFrac rest with
      | some tl => some (',' :: a :: b :: c :: tl)
      | none => fracTail (',' :: a :: b :: c :: rest)
    else fracTail (',' :: a :: b :: c :: rest)
  | l => fracTail l

/-- One width attempt of \d{1,3}(?:,\d{3})*\.\d{2}. -/
def grp1TryK (k : Nat) (l : List Char) : Option (List Char) :=
  match grpDigits k l with
  | some (d, rest) => (starThenFrac rest).map (fun t => d ++ t)
  | none => none

/-- Group of pattern 1 at a fixed position: \d{1,3} is greedy, so widths
3, 2, 1 are tried in that order. -/
def grp1At (l : List Char) : Option (List Char) :=
  (grp1TryK 3 l) <|> (grp1TryK 2 l) <|> (grp1TryK 1 l)

/-- Optional leading dollar sign \$? before a digit-starting group: the
greedy option consumes the dollar sign when present, and retrying without
it cannot succeed since a digit is then required at the dollar sign
itself. -/
def dollarSkip (g : List Char → Option (List Char)) : List Char → Option (List Char)
  | [] => g []
  | c :: t => if c = '$' then g t else g (c :: t)

/-- Pattern r'\$?(\d{1,3}(?:,\d{3})*\.\d{2})' at one position. -/
def pat1At : List Char → Option (List Char) := dollarSkip grp1At

/-- re.search: try the position matcher at each position, left to right,
returning the first success. -/
def scanFor (m : List Char → Option (List Char)) : List Char → Option (List Char)
  | [] => m []
  | c :: t =>
    match m (c :: t) with
    | some r => some r
    | none => scanFor m t

/-- Leftmost match of pattern 1, returning group 1. -/
def search1 (l : List Char) : Option (List Char) := scanFor pat1At l

/-- Maximal run of (?:,\d{3})* (nothing follows it in pattern 2, so greedy
matching never backtracks). -/
def commaStar : List Char → List Char
  | ',' :: a :: b :: c :: rest =>
    if a.isDigit && b.isDigit && c.isDigit then ',' :: a :: b :: c :: commaStar rest
    else []
  | _ => []

/-- One width attempt of \d{1,3}(?:,\d{3})*. -/
def grp2TryK (k : Nat) (l : List Char) : Option (List Char) :=
  (grpDigits k l).map (fun p => p.1 ++ commaStar p.2)

/-- Group of pattern r'\$?(\d{1,3}(?:,\d{3})*)' at a fixed position. -/
def grp2At (l : List Char) : Option (List Char) :=
  (grp2TryK 3 l) <|> (grp2TryK 2 l) <|> (grp2TryK 1 l)

/-- Pattern 2 at one position (optional dollar sign as in pat1At). -/
def pat2At : List Char → Option (List Char) := dollarSkip grp2At

/-- Leftmost match of pattern 2, returning group 1. -/
def search2 (l : List Char) : Option (List Char) := scanFor pat2At l

/-- Digit list to natural number. -/
def digitsVal (l : List Char) : ℕ :=
  l.foldl (fun a c => a * 10 + (c.toNat - 48)) 0

/-- candidate.split('.')[1]: the characters after the first dot (empty when
there is no dot). -/
def fracPartOf (l : List Char) : List Char :=
  (l.dropWhile (fun c => c ≠ '.')).drop 1

/-- Python float() on a string shaped digits['.'digits] (comma-free): the
integer digits plus the fractional digits scaled down; when no dot is
present the fractional contribution is zero. -/
def ratOfRun (l : List Char) : ℚ :=
  (digitsVal (l.takeWhile Char.isDigit) : ℚ) +
    (digitsVal (fracPartOf l) : ℚ) / (10 : ℚ) ^ (fracPartOf l).length

/-- State machine for re.findall(r'\d+\.?\d*', s): the accumulator holds
the reversed current run and whether the dot has been consumed. -/
def runsGo : List Char → Option (List Char × Bool) → List (List Char)
  | [], some (run, _) => [run.reverse]
  | [], none => []
  | c :: t, none =>
    if c.isDigit then runsGo t (some ([c], false)) else runsGo t none
  | c :: t, some (run, false) =>
    if c.isDigit then runsGo t (some (c :: run, false))
    else if c = '.' then runsGo t (some ('.' :: run, true))
    else run.reverse :: runsGo t none
  | c :: t, some (run, true) =>
    if c.isDigit then runsGo t (some (c :: run, true))
    else run.reverse :: runsGo t none

/-- All matches of r'\d+\.?\d*' in order (Method 2 of clean_price). -/
def runsOf (l : List Char) : List (List Char) := runsGo l none

/-- True when the run contains a dot. -/
def hasDot (l : List Char) : Bool := l.any (· = '.')

/-- The candidate loop of Method 2: first run that either has exactly two
fractional digits or is a dot-free run of at most six digits. -/
def fallbackScan : List (List Char) → Option ℚ
  | [] => none
  | r :: rest =>
    if hasDot r then
      if (fracPartOf r).length = 2 then some (ratOfRun r) else fallbackScan rest
    else if r.length ≤ 6 then some (ratOfRun r) else fallbackScan rest

/-- clean_price (src/app.py lines 55-91). The input is None or a string;
an empty/None input returns None immediately; otherwise the stripped text
is searched with pattern 1 then pattern 2 (commas removed from the group,
parsed as a float), then the findall fallback, and finally the stripped
text itself is returned (or None if it stripped to nothing). -/
def clean_price : Option String → PriceResult
  | none => PriceResult.nil
  | some s =>
    if s = "" then PriceResult.nil
    else
      let t := stripL s.data
      match search1 t with
      | some g => PriceResult.num (ratOfRun (g.filter (fun c => c ≠ ',')))
      | none =>
        match search2 t with
        | some g => PriceResult.num (ratOfRun (g.filter (fun c => c ≠ ',')))
        | none =>
          match fallbackScan (runsOf t) with
          | some q => PriceResult.num q
          | none => if t = [] then PriceResult.nil else PriceResult.txt (String.mk t)

/-! ### Facts about the price normalizer -/

lemma grp2At_isSome_of_digit (c : Char) (t : List Char) (h : c.isDigit = true) :
    (grp2At (c :: t)).isSome = true := by
  have h1 : grp2TryK 1 (c :: t) = some ([c] ++ commaStar t) := by
    simp [grp2TryK, grpDigits, h]
  unfold grp2At
  cases h3 : grp2TryK 3 (c :: t) <;> cases h2 : grp2TryK 2 (c :: t) <;>
    simp [HOrElse.hOrElse, OrElse.orElse, Option.orElse, h1]

lemma scanFor_cons_none (m : List Char → Option (List Char)) (c : Char) (t : List Char)
    (h : scanFor m (c :: t) = none) : m (c :: t) = none ∧ scanFor m t = none := by
  unfold scanFor at h
  cases hm : m (c :: t) with
  | some r => rw [hm] at h; exact absurd h (by simp)
  | none => rw [hm] at h; exact ⟨rfl, h⟩

/-- If pattern 2 finds nothing, the text contains no digit at all: at the
position of any digit, the width-1 alternative of \d{1,3} succeeds. -/
lemma search2_none_no_digit (l : List Char) (h : search2 l = none) :
    ∀ c ∈ l, c.isDigit = false := by
  induction l with
  | nil => intro c hc; exact absurd hc (List.not_mem_nil c)
  | cons c t ih =>
    obtain ⟨hm, hrest⟩ := scanFor_cons_none pat2At c t h
    intro d hd
    rcases List.mem_cons.mp hd with rfl | hdt
    · cases hval : d.isDigit with
      | false => rfl
      | true =>
        exfalso
        have hne : d ≠ '$' := by
          intro heq
          rw [heq] at hval
          exact absurd hval (by decide)
        have hpat : pat2At (d :: t) = grp2At (d :: t) := by
          simp [pat2At, dollarSkip, hne]
        have := grp2At_isSome_of_digit d t hval
        rw [← hpat, hm] at this
        exact absurd this (by simp)
    · exact ih hrest d hdt

/-- A digit-free text yields an empty findall run list. -/
lemma runsGo_none_of_no_digit (l : List Char) (h : ∀ c ∈ l, c.isDigit = false) :
    runsGo l none = [] := by
  induction l with
  | nil => rfl
  | cons c t ih =>
    have hc : c.isDigit = false := h c (List.mem_cons_self c t)
    unfold runsGo
    rw [hc]
    simp only [Bool.false_eq_true, if_false]
    exact ih (fun d hd => h d (List.mem_cons_of_mem c hd))

lemma ratOfRun_eval (l ip f : List Char) (a b : ℕ)
    (hip : l.takeWhile Char.isDigit = ip) (hf : fracPartOf l = f)
    (ha : digitsVal ip = a) (hb : digitsVal f = b) :
    ratOfRun l = (a : ℚ) + (b : ℚ) / (10 : ℚ) ^ f.length := by
  rw [ratOfRun, hip, hf, ha, hb]

/-- C4: the price normalizer maps "$1,234.56" to 1234.56 and "89" to 89.0
(exact rationals here), maps the empty string and an absent input to None,
and passes unparsable text such as "Free" through as the trimmed original
text. -/
theorem c4_price_normalizer_cases :
    clean_price (some "$1,234.56") = PriceResult.num (123456 / 100) ∧
    clean_price (some "89") = PriceResult.num 89 ∧
    clean_price (some "") = PriceResult.nil ∧
    clean_price none = PriceResult.nil ∧
    clean_price (some "Free") = PriceResult.txt "Free" ∧
    clean_price (some " Free ") = PriceResult.txt "Free" := by
  refine ⟨?_, ?_, by decide, by decide, by decide, by decide⟩
  · have hstep : clean_price (some "$1,234.56") = PriceResult.num (ratOfRun "1234.56".data) := by
      rfl
    rw [hstep, ratOfRun_eval "1234.56".data "1234".data "56".data 1234 56
      (by decide) (by decide) (by decide) (by decide)]
    norm_num
  · have hstep : clean_price (some "89") = PriceResult.num (ratOfRun "89".data) := by
      rfl
    rw [hstep, ratOfRun_eval "89".data "89".data [] 89 0
      (by decide) (by decide) (by decide) (by decide)]
    norm_num

/-- C5: on every input on which pattern 1 and pattern 2 both fail, the
stripped text contains no digit at all, so the fallback scan sees an empty
run list and returns nothing; consequently every preference clause of the
fallback (two-fractional-digit runs over others, runs of at most six
integer digits otherwise, never a longer run) holds vacuously, and the
normalizer returns no number on such inputs. -/
theorem c5_fallback_vacuous (s : String)
    (h1 : search1 (stripL s.data) = none)
    (h2 : search2 (stripL s.data) = none) :
    (∀ c ∈ stripL s.data, c.isDigit = false) ∧
    runsOf (stripL s.data) = [] ∧
    fallbackScan (runsOf (stripL s.data)) = none ∧
    ∀ q : ℚ, clean_price (some s) ≠ PriceResult.num q := by
  have hnd : ∀ c ∈ stripL s.data, c.isDigit = false := search2_none_no_digit _ h2
  have hruns : runsOf (stripL s.data) = [] := runsGo_none_of_no_digit _ hnd
  refine ⟨hnd, hruns, by rw [hruns]; rfl, ?_⟩
  intro q hq
  by_cases hs : s = ""
  · rw [hs] at hq
    rw [show clean_price (some "") = PriceResult.nil from rfl] at hq
    exact PriceResult.noConfusion hq
  · simp only [clean_price, if_neg hs, h1, h2, hruns, fallbackScan] at hq
    split at hq <;> exact PriceResult.noConfusion hq

/-- Witness for C5 at the concrete input "Free". -/
theorem c5_fallback_vacuous_witness :
    runsOf (stripL "Free".data) = [] ∧
    clean_price (some "Free") ≠ PriceResult.num 0 :=
  ⟨(c5_fallback_vacuous "Free" (by decide) (by decide)).2.1,
   (c5_fallback_vacuous "Free" (by decide) (by decide)).2.2.2 0⟩

/-! ### The remaining regular expressions of the source

Each pattern is translated with Python semantics: leftmost position wins,
greedy quantifiers backtrack from the longest attempt, lazy quantifiers
grow from the shortest. -/

/-- Regex class [^.\n]. -/
def inClass (c : Char) : Bool := c ≠ '.' && c ≠ '\n'

/-- Attempt the group ([^.\n]+) after exactly j whitespace characters. -/
def gapAttempt (l : List Char) (j : Nat) : Option (List Char) :=
  match l.drop j with
  | c :: rest => if inClass c then some (c :: rest.takeWhile inClass) else none
  | [] => none

/-- Backtracking over the whitespace width j, longest first, not below
minJ (1 for \s+, 0 for \s*). -/
def gapTry (l : List Char) (minJ : Nat) : Nat → Option (List Char)
  | 0 => if minJ = 0 then gapAttempt l 0 else none
  | j+1 =>
    if j+1 < minJ then none
    else
      match gapAttempt l (j+1) with
      | some g => some g
      | none => gapTry l minJ j

/-- Matcher for \s+([^.\n]+) (allowZero false) or \s*([^.\n]+) (allowZero
true) at a fixed position, returning group 1. -/
def gapAfter (allowZero : Bool) (l : List Char) : Option (List Char) :=
  let n := (l.takeWhile isSpaceC).length
  if allowZero then gapTry l 0 n
  else if n = 0 then none else gapTry l 1 n

/-- One position of pattern <lit>\s+([^.\n]+) (case-insensitive literal). -/
def gapSearchAt (lit : List Char) (az : Bool) (l : List Char) : Option (List Char) :=
  if ciPref lit l then gapAfter az (l.drop lit.length) else none

/-- re.search of <lit>\s+([^.\n]+) (az false) or <lit>\s*([^.\n]+) with a
literal that already ends in a colon (az true), IGNORECASE; returns the
group. Used for the ships-from / sold-by extractions. -/
def gapSearch (lit : List Char) (az : Bool) (l : List Char) : Option (List Char) :=
  scanFor (gapSearchAt lit az) l

/-- Lazy group ([^.\n]+?) terminated by (?:\s|$): grow one character at a
time, stopping as soon as the next character is whitespace or the text
ends; fail when a class-excluded character is hit first. -/
def lazyGrp : List Char → Option (List Char)
  | [] => none
  | c :: rest =>
    if inClass c then
      match rest with
      | [] => some [c]
      | d :: _ =>
        if isSpaceC d then some [c]
        else (lazyGrp rest).map (fun t => c :: t)
    else none

/-- Backtracking over the \s+ width for the lazy-group seller patterns. -/
def sellerTry (l : List Char) : Nat → Option (List Char)
  | 0 => none
  | j+1 =>
    match lazyGrp (l.drop (j+1)) with
    | some g => some g
    | none => sellerTry l j

/-- Matcher for \s+([^.\n]+?)(?:\s|$) at a fixed position. -/
def sellerAfter (l : List Char) : Option (List Char) :=
  sellerTry l ((l.takeWhile isSpaceC).length)

/-- One position of pattern <lit>\s+([^.\n]+?)(?:\s|$) (IGNORECASE). -/
def sellerPatAt (lit : List Char) (l : List Char) : Option (List Char) :=
  if ciPref lit l then sellerAfter (l.drop lit.length) else none

/-- re.search for the three seller-name patterns of the offers page. -/
def sellerSearch (lit : List Char) (l : List Char) : Option (List Char) :=
  scanFor (sellerPatAt lit) l

/-- Pattern r'\$\d+\.\d{2}\s+shipping' (IGNORECASE) at one position,
returning the whole match. The \d+ run is maximal (a shorter run would put
a digit where the dot is required), and \s+ is the maximal whitespace run
(the following literal starts with a non-space). -/
def shipP1At : List Char → Option (List Char)
  | '$' :: rest =>
    let ds := rest.takeWhile Char.isDigit
    if ds = [] then none
    else
      match rest.drop ds.length with
      | '.' :: a :: b :: rest2 =>
        if a.isDigit && b.isDigit then
          let ws := rest2.takeWhile isSpaceC
          if ws = [] then none
          else if ciPref "shipping".data (rest2.drop ws.length) then
            some ('$' :: ds ++ '.' :: a :: b :: (ws ++ (rest2.drop ws.length).take 8))
          else none
        else none
      | _ => none
  | _ => none

/-- Pattern r'FREE\s+(?:Shipping|delivery)' (IGNORECASE) at one position. -/
def shipP2At (l : List Char) : Option (List Char) :=
  if ciPref "free".data l then
    let rest := l.drop 4
    let ws := rest.takeWhile isSpaceC
    if ws = [] then none
    else
      let rest2 := rest.drop ws.length
      if ciPref "shipping".data rest2 then some (l.take 4 ++ ws ++ rest2.take 8)
      else if ciPref "delivery".data rest2 then some (l.take 4 ++ ws ++ rest2.take 8)
      else none
  else none

/-- Pattern r'\+\s*\$\d+\.\d{2}\s+shipping' (IGNORECASE) at one position. -/
def shipP3At : List Char → Option (List Char)
  | '+' :: rest =>
    let ws := rest.takeWhile isSpaceC
    match shipP1At (rest.drop ws.length) with
    | some m => some ('+' :: (ws ++ m))
    | none => none
  | _ => none

/-- Pattern r'Prime\s+FREE\s+Delivery' (IGNORECASE) at one position. -/
def shipP4At (l : List Char) : Option (List Char) :=
  if ciPref "prime".data l then
    let r1 := l.drop 5
    let w1 := r1.takeWhile isSpaceC
    if w1 = [] then none
    else
      let r2 := r1.drop w1.length
      if ciPref "free".data r2 then
        let r3 := r2.drop 4
        let w2 := r3.takeWhile isSpaceC
        if w2 = [] then none
        else
          let r4 := r3.drop w2.length
          if ciPref "delivery".data r4 then
            some (l.take 5 ++ w1 ++ r2.take 4 ++ w2 ++ r4.take 8)
          else none
      else none
  else none

/-- The shipping-information loop over the four ordered patterns (lines
357-368): first pattern with a match anywhere wins, group stripped. -/
def shippingOf (t : String) : Option String :=
  match scanFor shipP1At t.data with
  | some m => some (String.mk (stripL m))
  | none =>
    match scanFor shipP2At t.data with
    | some m => some (String.mk (stripL m))
    | none =>
      match scanFor shipP3At t.data with
      | some m => some (String.mk (stripL m))
      | none => (scanFor shipP4At t.data).map (fun m => String.mk (stripL m))

/-- Optional fractional tail (?:\.\d{2})? — the matched text or nothing. -/
def optFrac (l : List Char) : List Char :=
  match fracTail l with
  | some f => f
  | none => []

/-- One width attempt of \d{1,3}(?:,\d{3})*(?:\.\d{2})? — with nothing
after the optional tail, the greedy star takes its maximal run and the
optional fraction is taken when present. -/
def grp3TryK (k : Nat) (l : List Char) : Option (List Char) :=
  (grpDigits k l).map (fun p =>
    let cs := commaStar p.2
    p.1 ++ cs ++ optFrac (p.2.drop cs.length))

/-- Group of r'\$(\d{1,3}(?:,\d{3})*(?:\.\d{2})?)' at a fixed position. -/
def grp3At (l : List Char) : Option (List Char) :=
  (grp3TryK 3 l) <|> (grp3TryK 2 l) <|> (grp3TryK 1 l)

/-- The dollar-amount pattern at one position: the dollar sign is
mandatory here. -/
def pat3At : List Char → Option (List Char)
  | [] => none
  | c :: t => if c = '$' then grp3At t else none

/-- re.sub(r'^(by\s+)', '', IGNORECASE): strip one leading "by" plus
whitespace. -/
def subBy (l : List Char) : List Char :=
  if ciPref "by".data l then
    let rest := l.drop 2
    if (rest.takeWhile isSpaceC) = [] then l else rest.dropWhile isSpaceC
  else l

/-- re.sub(r'^(by\s+|sold\s+by\s+)', '', IGNORECASE): the alternatives are
tried in pattern order. -/
def subSoldBy (l : List Char) : List Char :=
  if ciPref "by".data l && !((l.drop 2).takeWhile isSpaceC = []) then
    (l.drop 2).dropWhile isSpaceC
  else if ciPref "sold".data l then
    let r1 := l.drop 4
    let w1 := r1.takeWhile isSpaceC
    if w1 = [] then l
    else
      let r2 := r1.drop w1.length
      if ciPref "by".data r2 then
        let r3 := r2.drop 2
        if (r3.takeWhile isSpaceC) = [] then l else r3.dropWhile isSpaceC
      else l
  else l

/-! ### The parsed-document abstraction

BeautifulSoup is the external parse collaborator; the code uses only a
small query surface on it, modelled here as an abstract tree node. The
hasDollarSpan capability models `div.find('span', string=re.compile(r'\$\d+'))
is not None`, used only by the broad container fallback. -/

inductive Node where
  | mk (text : String) (href : Option String)
      (findSpanClass : String → Option Node)
      (sellerLinks : List Node)
      (hasDollarSpan : Bool)

/-- node.get_text(). -/
def Node.text : Node → String
  | .mk t _ _ _ _ => t

/-- node.get('href'). -/
def Node.href : Node → Option String
  | .mk _ h _ _ _ => h

/-- node.find('span', class_=c). -/
def Node.findSpanClass : Node → String → Option Node
  | .mk _ _ f _ _ => f

/-- node.find_all('a', href=re.compile(r'seller=')). -/
def Node.sellerLinks : Node → List Node
  | .mk _ _ _ s _ => s

/-- Whether node.find('span', string=re.compile(r'\$\d+')) finds a node. -/
def Node.hasDollarSpan : Node → Bool
  | .mk _ _ _ _ d => d

/-- The queryable document (soup): select_one / select by CSS selector,
find_all('span', class_=c), find_all('div'), and the full text. -/
structure Soup where
  selectOne : String → Option Node
  select : String → List Node
  findAllSpanClass : String → List Node
  allDivs : List Node
  text : String

/-- The two document fetches are external collaborators: get_page on a
product identifier and get_page_direct on a URL, each returning a parsed
document or a failure signal (the source catches every exception and
returns None). -/
structure FetchEnv where
  getPage : String → Option Soup
  getPageDirect : String → Option Soup

/-! ### Buy-box extraction (extract_buybox_info, lines 93-200) -/

structure BuyboxData where
  buybox_price : PriceResult
  buybox_seller : Option String
  buybox_ships_from : Option String
  buybox_sold_by : Option String
deriving DecidableEq, Repr

/-- Method 1 (lines 106-123): first a-price container owning an
a-price-whole sub-node; reconstruct whole[.fraction] and normalize. The
loop breaks at the first container with a whole element, whatever
clean_price returns for it. -/
def bbPriceM1 : List Node → Option PriceResult
  | [] => none
  | c :: rest =>
    match c.findSpanClass "a-price-whole" with
    | some w =>
      let whole := String.mk (stripL w.text.data)
      let full :=
        match c.findSpanClass "a-price-fraction" with
        | some f => whole ++ "." ++ String.mk (stripL f.text.data)
        | none => whole
      some (clean_price (some full))
    | none => bbPriceM1 rest

def priceSelectors : List String :=
  [".a-price-whole", "#apex_desktop .a-price .a-price-whole",
   "#priceblock_dealprice", "#priceblock_pospromoprice",
   ".a-price .a-offscreen", "#priceDisplayInfoFeature .a-price .a-offscreen"]

/-- Method 2 (lines 126-141): first selector that yields an element,
whatever its text; its text is normalized. -/
def bbPriceM2 (soup : Soup) : List String → Option PriceResult
  | [] => none
  | sel :: rest =>
    match soup.selectOne sel with
    | some el => some (clean_price (some el.text))
    | none => bbPriceM2 soup rest

def sellerSelectors : List String :=
  ["#merchantInfoFeature_feature_div a", "#sellerProfileTriggerId",
   "#merchant-info a", "a[href*=\"seller=\"]",
   ".tabular-buybox-text[data-feature-name=\"bylineInfo\"] a"]

/-- The seller loop (lines 152-159): the loop breaks at the FIRST selector
that yields an element — even when that element's text is empty — and
stores its stripped text with a leading by/sold-by prefix removed. -/
def bbSellerLoop (soup : Soup) : List String → Option String
  | [] => none
  | sel :: rest =>
    match soup.selectOne sel with
    | some el => some (String.mk (subSoldBy (stripL el.text.data)))
    | none => bbSellerLoop soup rest

/-- Ordered ships-from patterns of lines 175-179. -/
def shipsFromPats (t : List Char) : Option (List Char) :=
  match gapSearch "Ships from".data false t with
  | some g => some g
  | none =>
    match gapSearch "Shipped from".data false t with
    | some g => some g
    | none => gapSearch "Ships from:".data true t

/-- Ordered sold-by patterns of lines 187-190. -/
def soldByPats (t : List Char) : Option (List Char) :=
  match gapSearch "Sold by".data false t with
  | some g => some g
  | none => gapSearch "Sold by:".data true t

/-- Python truthiness of an optional string (None and "" are falsy). -/
def optTruthy : Option String → Bool
  | none => false
  | some s => s ≠ ""

/-- One fulfillment field update inside a container: only a falsy current
value is replaced, by the stripped group of the first matching pattern. -/
def fulfillStep (t : List Char) (cur : Option String)
    (pats : List Char → Option (List Char)) : Option String :=
  if optTruthy cur then cur
  else
    match pats t with
    | some g => some (String.mk (stripL g))
    | none => cur

def fulfillContainers : List String :=
  ["#merchantInfoFeature_feature_div", "#tabular-buybox",
   ".tabular-buybox-text", "#merchant-info"]

/-- The fulfillment container loop (lines 169-198): scan each container
text for ships-from and sold-by, never overwriting a truthy value, and
stop after a container that leaves both truthy. -/
def fulfillGo (soup : Soup) :
    List String → Option String × Option String → Option String × Option String
  | [], acc => acc
  | sel :: rest, (sf, sb) =>
    match soup.selectOne sel with
    | none => fulfillGo soup rest (sf, sb)
    | some el =>
      let t := el.text.data
      let sf2 := fulfillStep t sf shipsFromPats
      let sb2 := fulfillStep t sb soldByPats
      if optTruthy sf2 && optTruthy sb2 then (sf2, sb2)
      else fulfillGo soup rest (sf2, sb2)

/-- extract_buybox_info (lines 93-200). -/
def extract_buybox_info (soup : Soup) : BuyboxData :=
  let price :=
    match bbPriceM1 (soup.findAllSpanClass "a-price") with
    | some p => p
    | none =>
      match bbPriceM2 soup priceSelectors with
      | some p => p
      | none => PriceResult.nil
  let fulfill := fulfillGo soup fulfillContainers (none, none)
  { buybox_price := price
    buybox_seller := bbSellerLoop soup sellerSelectors
    buybox_ships_from := fulfill.1
    buybox_sold_by := fulfill.2 }

/-! ### Marketplace-offer extraction (extract_other_sellers, lines 202-393) -/

structure SellerData where
  price : PriceResult
  seller_name : Option String
  condition : Option String
  shipping : Option String
  ships_from : Option String
  sold_by : Option String
deriving DecidableEq, Repr

/-- Python truthiness of a price value: None, 0.0 and "" are falsy. -/
def pyTruthy : PriceResult → Bool
  | .num q => decide (q ≠ 0)
  | .txt s => s ≠ ""
  | .nil => false

/-- Price Method 1 (lines 279-285): a-offscreen text, kept only when the
normalized value is truthy. -/
def offerPriceM1 (c : Node) : Option PriceResult :=
  match c.findSpanClass "a-offscreen" with
  | some sp =>
    let cp := clean_price (some (String.mk (stripL sp.text.data)))
    if pyTruthy cp then some cp else none
  | none => none

/-- Price Method 2 (lines 288-310): reconstruct whole(+decimal)+fraction
from the a-price sub-nodes, kept only when the normalized value is
truthy. -/
def offerPriceM2 (c : Node) : Option PriceResult :=
  match c.findSpanClass "a-price" with
  | some pc =>
    match pc.findSpanClass "a-price-whole" with
    | some w =>
      let whole := (stripL w.text.data).filter (fun ch => ch ≠ ',')
      let full :=
        match pc.findSpanClass "a-price-fraction" with
        | some f =>
          match pc.findSpanClass "a-price-decimal" with
          | some d => whole ++ stripL d.text.data ++ stripL f.text.data
          | none => whole ++ '.' :: stripL f.text.data
        | none => whole
      let cp := clean_price (some (String.mk full))
      if pyTruthy cp then some cp else none
    | none => none
  | none => none

/-- Per-container price (lines 276-317): Methods 1 and 2 store only truthy
values; Method 3 stores whatever clean_price returns for the first
dollar-amount found in the container text; nil means the key was never
set. -/
def offerPrice (c : Node) : PriceResult :=
  match offerPriceM1 c with
  | some p => p
  | none =>
    match offerPriceM2 c with
    | some p => p
    | none =>
      match scanFor pat3At c.text.data with
      | some g => clean_price (some (String.mk g))
      | none => PriceResult.nil

def amazonNames : List String := ["amazon", "amazon.com"]

/-- Seller-profile link loop (lines 323-330): first link whose stripped
text is non-empty and not literally Amazon; a leading "by " is then
removed. -/
def linkName : List Node → Option String
  | [] => none
  | ln :: rest =>
    let s := stripL ln.text.data
    if s ≠ [] && !(amazonNames.contains (String.mk (lowerL s))) then
      some (String.mk (subBy s))
    else linkName rest

def sellerLits : List (List Char) :=
  ["Sold by".data, "Ships from and sold by".data, "by".data]

/-- Seller-name pattern loop (lines 333-347): first pattern whose stripped
group has more than two characters. -/
def patNameGo : List (List Char) → List Char → Option String
  | [], _ => none
  | lit :: rest, t =>
    match sellerSearch lit t with
    | some g =>
      let s := stripL g
      if s.length > 2 then some (String.mk s) else patNameGo rest t
    | none => patNameGo rest t

/-- Per-container seller name: profile links first, then the text
patterns. -/
def offerName (c : Node) : Option String :=
  match linkName c.sellerLinks with
  | some n => some n
  | none => patNameGo sellerLits c.text.data

def condKeywords : List String :=
  ["New", "Used", "Refurbished", "Collectible", "Renewed"]

/-- Condition classification (lines 349-354): first keyword whose
lower-cased form occurs in the lower-cased container text. -/
def conditionOf (t : String) : Option String :=
  condKeywords.find? (fun k => hasSub (lowerL t.data) (lowerL k.data))

/-- The per-container record built by lines 272-379. -/
def buildSellerData (c : Node) : SellerData :=
  { price := offerPrice c
    seller_name := offerName c
    condition := conditionOf c.text
    shipping := shippingOf c.text
    ships_from := (gapSearch "Ships from".data false c.text.data).map
      (fun g => String.mk (stripL g))
    sold_by := (gapSearch "Sold by".data false c.text.data).map
      (fun g => String.mk (stripL g)) }

/-- Acceptance test of line 382: `seller_data.get('price') or
seller_data.get('seller_name')` under Python truthiness. -/
def acceptOffer (sd : SellerData) : Bool :=
  pyTruthy sd.price || optTruthy sd.seller_name

/-- Build one container's record and keep it only when accepted. -/
def extractOne (c : Node) : Option SellerData :=
  if acceptOffer (buildSellerData c) then some (buildSellerData c) else none

/-- The container loop (lines 268-384): enumerate breaks at index 20, so
exactly the first 20 containers are visited, and accepted records are
appended in container order. -/
def processContainers (l : List Node) : List SellerData :=
  (l.take 20).filterMap extractOne

def containerSelectors : List String :=
  ["div[data-aod-atc-action]", "div.a-row.a-spacing-mini.olp-offer-row",
   "div.olp-offer-row", "div[class*=\"olp-offer\"]",
   "div.a-section.a-spacing-small.olp-offer"]

/-- Container discovery (lines 241-254): first selector with at least one
match wins. -/
def firstSelectHit (soup : Soup) : List String → List Node
  | [] => []
  | sel :: rest =>
    match soup.select sel with
    | [] => firstSelectHit soup rest
    | cs => cs

/-- Broad fallback (lines 257-265): any div owning an a-price span or an
inline dollar-digits span. -/
def broadContainers (soup : Soup) : List Node :=
  soup.allDivs.filter (fun d => (d.findSpanClass "a-price").isSome || d.hasDollarSpan)

/-- The offer containers of the offers document. -/
def containersOf (soup : Soup) : List Node :=
  match firstSelectHit soup containerSelectors with
  | [] => broadContainers soup
  | cs => cs

def offerSelectors : List String :=
  ["a[href*=\"offer-listing\"]", "a[href*=\"/gp/offer-listing/\"]",
   "#aod-ingress-link", "a[id=\"aod-ingress-link\"]"]

/-- Offers-link discovery loop (lines 217-223): first selector yielding an
element with a truthy href. -/
def offerLinkLoop (soup : Soup) : List String → Option String
  | [] => none
  | sel :: rest =>
    match soup.selectOne sel with
    | some el =>
      match el.href with
      | some h => if h ≠ "" then some h else offerLinkLoop soup rest
      | none => offerLinkLoop soup rest
    | none => offerLinkLoop soup rest

/-- The offers-document URL: a discovered link (made absolute when it
starts with a slash) or the constructed fallback (lines 217-227). -/
def offerLinkOf (soup : Soup) (asin : String) : String :=
  match offerLinkLoop soup offerSelectors with
  | some h =>
    if isPrefOf "/".data h.data then "https://www.amazon.com" ++ h else h
  | none =>
    "https://www.amazon.com/gp/offer-listing/" ++ asin
      ++ "/ref=dp_olp_ALL_mbc?ie=UTF8&condition=ALL"

/-- extract_other_sellers (lines 202-393): discover the offers URL, fetch
it through the collaborator; on failure (None) the try block skips all
processing and the accumulated empty list is returned. -/
def extract_other_sellers (env : FetchEnv) (soup : Soup) (asin : String) :
    List SellerData :=
  match env.getPageDirect (offerLinkOf soup asin) with
  | none => []
  | some osoup => processContainers (containersOf osoup)

/-! ### Row assembly (scrape_asin, lines 411-508) -/

structure Row where
  ASIN : String
  Title : String
  URL : String
  Status : String
  buybox_price : PriceResult
  buybox_seller : Option String
  buybox_ships_from : Option String
  buybox_sold_by : Option String
  seller_type : String
  seller_name : Option String
  seller_price : PriceResult
  seller_condition : Option String
  seller_shipping : Option String
  seller_ships_from : Option String
  seller_sold_by : Option String
deriving DecidableEq, Repr

def titleSelectors : List String :=
  ["span#productTitle", "#productTitle", "h1.a-size-large", "h1 span", "h1",
   ".product-title", "[data-automation-id=\"product-title\"]"]

/-- The title loop (lines 446-451): unlike the seller loop, it breaks only
when the stripped text is non-empty; an empty result falls through to the
later default. -/
def findTitle (soup : Soup) : List String → String
  | [] => ""
  | sel :: rest =>
    match soup.selectOne sel with
    | some el =>
      let t := stripL el.text.data
      if t ≠ [] then String.mk t else findTitle soup rest
    | none => findTitle soup rest

def unavailIndicators : List String :=
  ["Currently unavailable", "This item is not available", "Page Not Found",
   "Sorry, we just ran out", "Out of stock"]

/-- Availability check (lines 456-466): available unless an indicator
occurs as an exact substring of the full page text. -/
def isAvailable (pageText : String) : Bool :=
  !(unavailIndicators.any (fun ind => hasSub pageText.data ind.data))

/-- The synthetic error row of lines 415-432. -/
def errRow (asin url : String) : Row :=
  { ASIN := asin, Title := "Error: Could not fetch page", URL := url,
    Status := "Error", buybox_price := PriceResult.nil, buybox_seller := none,
    buybox_ships_from := none, buybox_sold_by := none, seller_type := "buybox",
    seller_name := none, seller_price := PriceResult.nil,
    seller_condition := none, seller_shipping := none,
    seller_ships_from := none, seller_sold_by := none }

/-- The buy-box base row of lines 478-492 (seller_condition defaulted to
"New"). -/
def baseRow (asin title url : String) (avail : Bool) (bb : BuyboxData) : Row :=
  { ASIN := asin, Title := title, URL := url,
    Status := if avail then "Available" else "Unavailable",
    buybox_price := bb.buybox_price, buybox_seller := bb.buybox_seller,
    buybox_ships_from := bb.buybox_ships_from, buybox_sold_by := bb.buybox_sold_by,
    seller_type := "buybox", seller_name := bb.buybox_seller,
    seller_price := bb.buybox_price, seller_condition := some "New",
    seller_shipping := none, seller_ships_from := bb.buybox_ships_from,
    seller_sold_by := bb.buybox_sold_by }

/-- One marketplace-offer row (lines 495-506): a copy of the base row with
the seller_* projection overwritten, 1-indexed seller_type label. -/
def offerRow (base : Row) (i : Nat) (s : SellerData) : Row :=
  { base with
    seller_type := "other_seller_" ++ toString (i + 1),
    seller_name := s.seller_name,
    seller_price := s.price,
    seller_condition := some (s.condition.getD "Unknown"),
    seller_shipping := s.shipping,
    seller_ships_from := s.ships_from,
    seller_sold_by := s.sold_by }

/-- The enumerate loop of lines 495-506. -/
def offerRowsGo (base : Row) : Nat → List SellerData → List Row
  | _, [] => []
  | i, s :: rest => offerRow base i s :: offerRowsGo base (i + 1) rest

def urlOf (asin : String) : String := "https://www.amazon.com/dp/" ++ asin ++ "/"

/-- Title resolution with the default of lines 453-454. -/
def titleOf (soup : Soup) : String :=
  if findTitle soup titleSelectors = "" then "Title not found"
  else findTitle soup titleSelectors

/-- The shared base row of a successfully fetched product. -/
def scrapeBase (asin : String) (soup : Soup) : Row :=
  baseRow asin (titleOf soup) (urlOf asin) (isAvailable soup.text)
    (extract_buybox_info soup)

/-- scrape_asin (lines 411-508): one synthetic error row on primary fetch
failure, otherwise the buy-box row followed by one row per accepted
marketplace offer. -/
def scrape_asin (env : FetchEnv) (asin : String) : List Row :=
  match env.getPage asin with
  | none => [errRow asin (urlOf asin)]
  | some soup =>
    scrapeBase asin soup ::
      offerRowsGo (scrapeBase asin soup) 0 (extract_other_sellers env soup asin)

/-! ### Substring characterizations -/

lemma isPrefOf_iff (n : List Char) : ∀ h : List Char,
    (isPrefOf n h = true ↔ ∃ r, h = n ++ r) := by
  induction n with
  | nil =>
    intro h
    simp [isPrefOf]
  | cons a as ih =>
    intro h
    cases h with
    | nil =>
      simp [isPrefOf]
    | cons b bs =>
      simp only [isPrefOf, Bool.and_eq_true, decide_eq_true_eq, ih bs,
        List.cons_append, List.cons.injEq]
      constructor
      · rintro ⟨rfl, r, rfl⟩
        exact ⟨r, rfl, rfl⟩
      · rintro ⟨r, rfl, rfl⟩
        exact ⟨rfl, r, rfl⟩

lemma hasSub_iff (hay needle : List Char) :
    hasSub hay needle = true ↔ ∃ l r, hay = l ++ needle ++ r := by
  induction hay with
  | nil =>
    simp only [hasSub, isPrefOf_iff]
    constructor
    · rintro ⟨r, hr⟩
      exact ⟨[], r, by simpa using hr⟩
    · rintro ⟨l, r, hr⟩
      rw [List.append_assoc] at hr
      obtain ⟨hl, hnr⟩ := List.append_eq_nil.mp hr.symm
      obtain ⟨hn, hrr⟩ := List.append_eq_nil.mp hnr
      exact ⟨[], by rw [hn]; rfl⟩
  | cons c t ih =>
    simp only [hasSub, Bool.or_eq_true, isPrefOf_iff, ih]
    constructor
    · rintro (⟨r, hr⟩ | ⟨l, r, hr⟩)
      · exact ⟨[], r, by simpa using hr⟩
      · exact ⟨c :: l, r, by rw [hr]; rfl⟩
    · rintro ⟨l, r, hr⟩
      cases l with
      | nil => exact Or.inl ⟨r, by simpa using hr⟩
      | cons x xs =>
        right
        rw [List.cons_append, List.cons_append] at hr
        injection hr with h1 h2
        exact ⟨xs, r, h2⟩

/-- Any text containing "renewed" also contains "new". -/
lemma hasSub_new_of_renewed (t : List Char)
    (h : hasSub t "renewed".data = true) : hasSub t "new".data = true := by
  rw [hasSub_iff] at h ⊢
  obtain ⟨l, r, hr⟩ := h
  refine ⟨l ++ "re".data, "ed".data ++ r, ?_⟩
  rw [hr, show "renewed".data = "re".data ++ "new".data ++ "ed".data from by decide]
  simp [List.append_assoc]

/-! ### C10: condition classification -/

/-- C10: per-offer condition classification is the first keyword of
[New, Used, Refurbished, Collectible, Renewed] whose lower-cased form
occurs in the lower-cased container text; since any text containing
"renewed" also contains "new", the classification never yields
"Renewed". -/
theorem c10_condition_never_renewed :
    (∀ t : String, conditionOf t ≠ some "Renewed") ∧
    (∀ c : Node, (buildSellerData c).condition ≠ some "Renewed") := by
  have main : ∀ t : String, conditionOf t ≠ some "Renewed" := by
    intro t h
    have hp := List.find?_some h
    simp only at hp
    rw [show lowerL "Renewed".data = "renewed".data from by decide] at hp
    have hnew := hasSub_new_of_renewed _ hp
    have hfirst : conditionOf t = some "New" := by
      unfold conditionOf condKeywords
      apply List.find?_cons_of_pos
      rw [show lowerL "New".data = "new".data from by decide]
      exact hnew
    rw [hfirst] at h
    exact absurd h (by decide)
  exact ⟨main, fun c => main c.text⟩

/-! ### Structural lemmas about scrape_asin -/

lemma scrape_asin_eq (env : FetchEnv) (asin : String) (soup : Soup)
    (h : env.getPage asin = some soup) :
    scrape_asin env asin = scrapeBase asin soup ::
      offerRowsGo (scrapeBase asin soup) 0 (extract_other_sellers env soup asin) := by
  unfold scrape_asin
  rw [h]

lemma offerRow_status (base : Row) (i : Nat) (s : SellerData) :
    (offerRow base i s).Status = base.Status := rfl

lemma offerRowsGo_status (base : Row) :
    ∀ (l : List SellerData) (i : Nat) (r : Row),
      r ∈ offerRowsGo base i l → r.Status = base.Status := by
  intro l
  induction l with
  | nil =>
    intro i r hr
    exact absurd hr (List.not_mem_nil r)
  | cons s rest ih =>
    intro i r hr
    rcases List.mem_cons.mp hr with rfl | hmem
    · rfl
    · exact ih (i + 1) r hmem

lemma offerRowsGo_length (base : Row) :
    ∀ (l : List SellerData) (i : Nat), (offerRowsGo base i l).length = l.length := by
  intro l
  induction l with
  | nil => intro i; rfl
  | cons s rest ih =>
    intro i
    simp [offerRowsGo, ih]

lemma offerRowsGo_getq (base : Row) :
    ∀ (l : List SellerData) (i j : Nat),
      (offerRowsGo base i l).get? j = (l.get? j).map (fun s => offerRow base (i + j) s) := by
  intro l
  induction l with
  | nil => intro i j; simp [offerRowsGo]
  | cons s rest ih =>
    intro i j
    cases j with
    | zero => simp [offerRowsGo]
    | succ j =>
      have harith : i + 1 + j = i + (j + 1) := by omega
      simp only [offerRowsGo, List.get?, ih (i + 1) j, harith]

/-- A 1-indexed offer label can never equal the buy-box label. -/
lemma other_label_ne_buybox (s : String) : "other_seller_" ++ s ≠ "buybox" := by
  intro h
  have hd := congrArg String.data h
  rw [String.data_append] at hd
  have hlen := congrArg List.length hd
  rw [List.length_append] at hlen
  rw [show ("other_seller_".data).length = 13 from by decide,
    show ("buybox".data).length = 6 from by decide] at hlen
  omega

/-! ### C8: availability classification -/

/-- C8: a product document is classified available exactly when none of
the five indicator strings occurs as an exact, case-sensitive substring of
the full page text, and every emitted row carries Status "Available" or
"Unavailable" accordingly. -/
theorem c8_availability (env : FetchEnv) (asin : String) (soup : Soup)
    (h : env.getPage asin = some soup) :
    (isAvailable soup.text = true ↔
      ∀ ind ∈ unavailIndicators, ¬ ∃ l r, soup.text.data = l ++ ind.data ++ r) ∧
    ∀ row ∈ scrape_asin env asin,
      row.Status = if isAvailable soup.text then "Available" else "Unavailable" := by
  constructor
  · constructor
    · intro hav ind hind hex
      have hsub : hasSub soup.text.data ind.data = true := (hasSub_iff _ _).mpr hex
      have hany : unavailIndicators.any (fun i => hasSub soup.text.data i.data) = true :=
        List.any_eq_true.mpr ⟨ind, hind, hsub⟩
      rw [isAvailable, hany] at hav
      exact absurd hav (by decide)
    · intro hnone
      rw [isAvailable]
      cases hany : unavailIndicators.any (fun i => hasSub soup.text.data i.data) with
      | false => rfl
      | true =>
        obtain ⟨ind, hind, hsub⟩ := List.any_eq_true.mp hany
        exact absurd ((hasSub_iff _ _).mp hsub) (hnone ind hind)
  · intro row hrow
    rw [scrape_asin_eq env asin soup h] at hrow
    rcases List.mem_cons.mp hrow with rfl | hmem
    · rfl
    · rw [offerRowsGo_status _ _ _ _ hmem]
      rfl

/-- Witness soup and environment for C8: a page whose text contains
"Out of stock". -/
def c8Soup : Soup :=
  { selectOne := fun _ => none, select := fun _ => [],
    findAllSpanClass := fun _ => [], allDivs := [],
    text := "Sorry. Out of stock today" }

def c8Env : FetchEnv :=
  { getPage := fun _ => some c8Soup, getPageDirect := fun _ => none }

/-- Witness for C8 at a concrete unavailable page. -/
theorem c8_availability_witness :
    (isAvailable c8Soup.text = true ↔
      ∀ ind ∈ unavailIndicators, ¬ ∃ l r, c8Soup.text.data = l ++ ind.data ++ r) ∧
    ∀ row ∈ scrape_asin c8Env "B0TEST", row.Status =
      if isAvailable c8Soup.text then "Available" else "Unavailable" :=
  c8_availability c8Env "B0TEST" c8Soup rfl

/-! ### C6: the 20-container cap -/

/-- C6: offer extraction processes exactly the first 20 containers in
document order — the result is determined by (and equal on) the 20-prefix,
the cap counts visited containers, at most 20 records are produced, and a
25-container document has exactly 20 containers visited. -/
theorem c6_container_cap (l : List Node) :
    processContainers l = processContainers (l.take 20) ∧
    (processContainers l).length ≤ 20 ∧
    (l.length = 25 → (l.take 20).length = 20) := by
  refine ⟨?_, ?_, ?_⟩
  · unfold processContainers
    rw [List.take_take, min_self]
  · unfold processContainers
    calc ((l.take 20).filterMap extractOne).length
        ≤ (l.take 20).length := List.length_filterMap_le _ _
      _ ≤ 20 := by rw [List.length_take]; exact min_le_left _ _
  · intro h25
    rw [List.length_take, h25]
    rfl

/-- A trivial container node for the C6 witness. -/
def plainNode : Node := Node.mk "" none (fun _ => none) [] false

/-- Witness for C6 on a concrete list of 25 containers. -/
theorem c6_container_cap_witness :
    processContainers (List.replicate 25 plainNode) =
      processContainers ((List.replicate 25 plainNode).take 20) ∧
    (processContainers (List.replicate 25 plainNode)).length ≤ 20 ∧
    ((List.replicate 25 plainNode).take 20).length = 20 := by
  have h := c6_container_cap (List.replicate 25 plainNode)
  exact ⟨h.1, h.2.1, h.2.2 (by simp)⟩

/-! ### C1: row-count and seller_type invariant -/

/-- C1: when the primary fetch succeeds, scrape_asin returns exactly
1 + (number of accepted offer records) rows; the row at position 0 has
seller_type "buybox", and the row at any position j > 0 has seller_type
"other_seller_j" (1-indexed, discovery order), which is never "buybox". -/
theorem c1_row_invariant (env : FetchEnv) (asin : String) (soup : Soup)
    (h : env.getPage asin = some soup) :
    (scrape_asin env asin).length = 1 + (extract_other_sellers env soup asin).length ∧
    ((scrape_asin env asin).get? 0).map Row.seller_type = some "buybox" ∧
    ∀ j, 0 < j → j < (scrape_asin env asin).length →
      ((scrape_asin env asin).get? j).map Row.seller_type =
        some ("other_seller_" ++ toString j) ∧
      ((scrape_asin env asin).get? j).map Row.seller_type ≠ some "buybox" := by
  rw [scrape_asin_eq env asin soup h]
  refine ⟨?_, rfl, ?_⟩
  · simp [offerRowsGo_length, Nat.add_comm]
  · intro j hj0 hjlen
    obtain ⟨i, rfl⟩ : ∃ i, j = i + 1 := ⟨j - 1, by omega⟩
    rw [List.length_cons, offerRowsGo_length] at hjlen
    have hi : i < (extract_other_sellers env soup asin).length := by omega
    have hget : ((extract_other_sellers env soup asin).get? i).isSome := by
      rw [List.get?_eq_get hi]
      rfl
    obtain ⟨s, hs⟩ := Option.isSome_iff_exists.mp hget
    constructor
    · show ((offerRowsGo _ 0 _).get? i).map Row.seller_type = _
      rw [offerRowsGo_getq, hs]
      simp only [Option.map_some, Nat.zero_add]
      rfl
    · show ((offerRowsGo _ 0 _).get? i).map Row.seller_type ≠ _
      rw [offerRowsGo_getq, hs]
      simp only [Option.map_some, Nat.zero_add]
      intro hcontra
      have := Option.some.inj hcontra
      exact other_label_ne_buybox _ this

/-- Witness soup and environment for C1: primary fetch succeeds, offers
fetch fails, so there are zero accepted offers and one row. -/
def c1Soup : Soup :=
  { selectOne := fun _ => none, select := fun _ => [],
    findAllSpanClass := fun _ => [], allDivs := [], text := "" }

def c1Env : FetchEnv :=
  { getPage := fun _ => some c1Soup, getPageDirect := fun _ => none }

/-- Witness for C1 at a concrete product. -/
theorem c1_row_invariant_witness :
    (scrape_asin c1Env "B0A" ).length = 1 + (extract_other_sellers c1Env c1Soup "B0A").length ∧
    ((scrape_asin c1Env "B0A").get? 0).map Row.seller_type = some "buybox" :=
  ⟨(c1_row_invariant c1Env "B0A" c1Soup rfl).1,
   (c1_row_invariant c1Env "B0A" c1Soup rfl).2.1⟩

/-! ### C2: primary fetch failure -/

/-- C2: when the fetch collaborator fails on the primary document,
scrape_asin returns exactly the single synthetic error row: Status
"Error", every seller-specific and buy-box field None; and the result is
independent of the offers-document collaborator, so no offer extraction is
attempted (the failure is absorbed, never re-raised: the embedding is a
total function). -/
theorem c2_fetch_failure (env : FetchEnv) (asin : String)
    (h : env.getPage asin = none) :
    scrape_asin env asin = [errRow asin (urlOf asin)] ∧
    (errRow asin (urlOf asin)).Status = "Error" ∧
    (errRow asin (urlOf asin)).seller_name = none ∧
    (errRow asin (urlOf asin)).seller_price = PriceResult.nil ∧
    (errRow asin (urlOf asin)).seller_condition = none ∧
    (errRow asin (urlOf asin)).seller_shipping = none ∧
    (errRow asin (urlOf asin)).seller_ships_from = none ∧
    (errRow asin (urlOf asin)).seller_sold_by = none ∧
    (errRow asin (urlOf asin)).buybox_price = PriceResult.nil ∧
    (errRow asin (urlOf asin)).buybox_seller = none ∧
    (errRow asin (urlOf asin)).buybox_ships_from = none ∧
    (errRow asin (urlOf asin)).buybox_sold_by = none ∧
    ∀ d : String → Option Soup,
      scrape_asin { getPage := env.getPage, getPageDirect := d } asin =
        scrape_asin env asin := by
  have hmain : scrape_asin env asin = [errRow asin (urlOf asin)] := by
    unfold scrape_asin
    rw [h]
  refine ⟨hmain, rfl, rfl, rfl, rfl, rfl, rfl, rfl, rfl, rfl, rfl, rfl, ?_⟩
  intro d
  rw [hmain]
  unfold scrape_asin
  rw [show ({ getPage := env.getPage, getPageDirect := d } : FetchEnv).getPage = env.getPage
    from rfl, h]

/-- An always-failing fetch collaborator for the C2 witness. -/
def failEnv : FetchEnv := { getPage := fun _ => none, getPageDirect := fun _ => none }

/-- Witness for C2 at a concrete identifier. -/
theorem c2_fetch_failure_witness :
    scrape_asin failEnv "B0B" = [errRow "B0B" (urlOf "B0B")] ∧
    (errRow "B0B" (urlOf "B0B")).Status = "Error" :=
  ⟨(c2_fetch_failure failEnv "B0B" rfl).1, (c2_fetch_failure failEnv "B0B" rfl).2.1⟩

/-! ### C9: offers-document fetch failure -/

/-- C9: when the secondary offers-document fetch fails, extraction
degrades to zero offer records (the embedding is total, so nothing
escapes), the buy-box row is still emitted, and scrape_asin returns
exactly that one row. -/
theorem c9_offers_fetch_failure (env : FetchEnv) (asin : String) (soup : Soup)
    (h1 : env.getPage asin = some soup)
    (h2 : env.getPageDirect (offerLinkOf soup asin) = none) :
    extract_other_sellers env soup asin = [] ∧
    scrape_asin env asin = [scrapeBase asin soup] ∧
    (scrape_asin env asin).map Row.seller_type = ["buybox"] := by
  have hempty : extract_other_sellers env soup asin = [] := by
    unfold extract_other_sellers
    rw [h2]
  have hrows : scrape_asin env asin = [scrapeBase asin soup] := by
    rw [scrape_asin_eq env asin soup h1, hempty]
    rfl
  exact ⟨hempty, hrows, by rw [hrows]; rfl⟩

/-- Witness for C9: a successful primary fetch with a failing offers
fetch. -/
theorem c9_offers_fetch_failure_witness :
    extract_other_sellers c1Env c1Soup "B0C" = [] ∧
    scrape_asin c1Env "B0C" = [scrapeBase "B0C" c1Soup] ∧
    (scrape_asin c1Env "B0C").map Row.seller_type = ["buybox"] :=
  c9_offers_fetch_failure c1Env "B0C" c1Soup rfl rfl

/-! ### C3: the locator chains

The title loop (lines 446-451) skips a candidate whose text is empty, but
the buy-box seller loop (lines 152-159) breaks at the first candidate that
yields an element at all, storing its possibly-empty text. A document
whose first seller candidate matches an empty element therefore yields the
empty string, not the second candidate's non-empty text. -/

/-- An element with empty text. -/
def emptyTextNode : Node := Node.mk "" none (fun _ => none) [] false

/-- An element with text "Acme". -/
def acmeNode : Node := Node.mk "Acme" none (fun _ => none) [] false

/-- A document on which the first seller-chain candidate yields an empty
element and the second yields "Acme". -/
def c3Soup : Soup :=
  { selectOne := fun sel =>
      if sel = "#merchantInfoFeature_feature_div a" then some emptyTextNode
      else if sel = "#sellerProfileTriggerId" then some acmeNode
      else none,
    select := fun _ => [], findAllSpanClass := fun _ => [], allDivs := [],
    text := "" }

/-- Counterexample to C3: on c3Soup the first seller candidate yields an
element whose text strips to empty, the second candidate yields non-empty
text "Acme", yet the extracted buy-box seller is the empty string — not
the second candidate's text and not null. -/
theorem c3_locator_cx :
    (extract_buybox_info c3Soup).buybox_seller = some "" ∧
    (c3Soup.selectOne "#merchantInfoFeature_feature_div a").map
      (fun n => stripL n.text.data) = some [] ∧
    (c3Soup.selectOne "#sellerProfileTriggerId").map
      (fun n => String.mk (subSoldBy (stripL n.text.data))) = some "Acme" := by
  refine ⟨?_, by decide, by decide⟩
  decide

/-- C3 amended: every locator chain short-circuits — once a candidate
succeeds, the remaining candidates cannot influence the result. For the
title chain success means an element with non-empty stripped text, and the
result is that text; for the buy-box seller chain success means any
element, and the result is its stripped, prefix-stripped text even when
empty. -/
theorem c3_locator_amended (soup : Soup) (c1 c2 : String) (el : Node)
    (rest rest' : List String)
    (h1 : soup.selectOne c1 = none) (h2 : soup.selectOne c2 = some el) :
    (stripL el.text.data ≠ [] →
      (findTitle soup (c1 :: c2 :: rest) = String.mk (stripL el.text.data) ∧
       findTitle soup (c1 :: c2 :: rest) = findTitle soup (c1 :: c2 :: rest'))) ∧
    (bbSellerLoop soup (c1 :: c2 :: rest) =
        some (String.mk (subSoldBy (stripL el.text.data))) ∧
     bbSellerLoop soup (c1 :: c2 :: rest) = bbSellerLoop soup (c1 :: c2 :: rest')) := by
  constructor
  · intro hne
    constructor
    · simp [findTitle, h1, h2, hne]
    · simp [findTitle, h1, h2, hne]
  · constructor
    · simp [bbSellerLoop, h1, h2]
    · simp [bbSellerLoop, h1, h2]

/-- Witness for the amended C3 on a concrete document: with a failing
first candidate, the second candidate's element decides both chains. -/
theorem c3_locator_amended_witness :
    findTitle c3Soup ["nomatch", "#sellerProfileTriggerId"] = "Acme" ∧
    bbSellerLoop c3Soup ["nomatch", "#sellerProfileTriggerId"] = some "Acme" := by
  have h := c3_locator_amended c3Soup "nomatch" "#sellerProfileTriggerId" acmeNode
    [] [] rfl rfl
  constructor
  · rw [(h.1 (by decide)).1]
    decide
  · rw [h.2.1]
    decide

/-! ### C7: offer acceptance

The acceptance test of line 382 uses Python truthiness, so a stored price
of 0.0 does not count as "yielded a price" there. Names, once stored, are
always non-empty (the link branch strips a "by " prefix from an
already-stripped non-empty text, which cannot strip to nothing; the
pattern branch requires more than two characters). -/

lemma dropWhile_head_false (p : Char → Bool) :
    ∀ (l : List Char) (c : Char) (t : List Char),
      l.dropWhile p = c :: t → p c = false := by
  intro l
  induction l with
  | nil => intro c t h; exact absurd h (by simp)
  | cons a as ih =>
    intro c t h
    rw [List.dropWhile_cons] at h
    by_cases hp : p a
    · rw [if_pos hp] at h
      exact ih c t h
    · rw [if_neg hp] at h
      injection h with h1 h2
      rw [← h1]
      exact Bool.not_eq_true _ ▸ (by simpa using hp)

lemma stripL_reverse (l : List Char) :
    (stripL l).reverse = ((l.dropWhile isSpaceC).reverse).dropWhile isSpaceC := by
  simp [stripL]

/-- A stripped text has no trailing whitespace. -/
lemma stripL_last_not_space (l : List Char) (c : Char) (t : List Char)
    (h : (stripL l).reverse = c :: t) : isSpaceC c = false := by
  rw [stripL_reverse] at h
  exact dropWhile_head_false isSpaceC _ c t h

/-- Stripping a leading "by " from a stripped non-empty text never leaves
the empty list: the removed part would have to end in whitespace at the
end of the text. -/
lemma subBy_ne_nil (x : List Char) (hne : stripL x ≠ []) :
    subBy (stripL x) ≠ [] := by
  intro hcontra
  unfold subBy at hcontra
  by_cases hci : ciPref "by".data (stripL x) = true
  · rw [if_pos hci] at hcontra
    by_cases htw : ((stripL x).drop 2).takeWhile isSpaceC = []
    · rw [if_pos htw] at hcontra
      exact hne hcontra
    · rw [if_neg htw] at hcontra
      have hallspace : ∀ c ∈ (stripL x).drop 2, isSpaceC c = true := by
        intro c hc
        have := List.dropWhile_eq_nil_iff.mp hcontra c hc
        simpa using this
      have hrest_ne : (stripL x).drop 2 ≠ [] := by
        intro hnil
        rw [hnil] at htw
        exact htw rfl
      obtain ⟨c, t, hct⟩ := List.exists_cons_of_ne_nil
        (fun hrev => hrest_ne (by simpa using congrArg List.reverse hrev) :
          ((stripL x).drop 2).reverse ≠ [])
      have hc_mem : c ∈ (stripL x).drop 2 := by
        rw [← List.mem_reverse, hct]
        exact List.mem_cons_self c t
      have hc_space := hallspace c hc_mem
      have hsplit : (stripL x).reverse =
          c :: (t ++ ((stripL x).take 2).reverse) := by
        conv_lhs => rw [← List.take_append_drop 2 (stripL x)]
        rw [List.reverse_append, hct]
        rfl
      have := stripL_last_not_space x c _ hsplit
      rw [hc_space] at this
      exact absurd this (by decide)
  · rw [if_neg hci] at hcontra
    exact hne hcontra

lemma linkName_ne_empty :
    ∀ (links : List Node) (s : String), linkName links = some s → s ≠ "" := by
  intro links
  induction links with
  | nil => intro s h; exact absurd h (by simp [linkName])
  | cons ln rest ih =>
    intro s h
    unfold linkName at h
    by_cases hg : (stripL ln.text.data ≠ [] &&
        !(amazonNames.contains (String.mk (lowerL (stripL ln.text.data))))) = true
    · rw [if_pos hg] at h
      injection h with h1
      obtain ⟨hne, _⟩ := Bool.and_eq_true .. |>.mp hg
      have hne' : stripL ln.text.data ≠ [] := by simpa using hne
      have := subBy_ne_nil ln.text.data hne'
      intro hs
      rw [← h1] at hs
      have hdata := congrArg String.data hs
      exact this hdata
    · rw [if_neg hg] at h
      exact ih s h

lemma patNameGo_ne_empty :
    ∀ (lits : List (List Char)) (t : List Char) (s : String),
      patNameGo lits t = some s → s ≠ "" := by
  intro lits
  induction lits with
  | nil => intro t s h; exact absurd h (by simp [patNameGo])
  | cons lit rest ih =>
    intro t s h
    unfold patNameGo at h
    cases hsr : sellerSearch lit t with
    | none =>
      rw [hsr] at h
      exact ih t s h
    | some g =>
      rw [hsr] at h
      dsimp only at h
      by_cases hlen : (stripL g).length > 2
      · rw [if_pos hlen] at h
        injection h with h1
        intro hs
        rw [← h1] at hs
        have hdata := congrArg String.data hs
        have : stripL g = [] := hdata
        rw [this] at hlen
        exact absurd hlen (by simp)
      · rw [if_neg hlen] at h
        exact ih t s h

lemma offerName_ne_empty (c : Node) (s : String)
    (h : offerName c = some s) : s ≠ "" := by
  unfold offerName at h
  cases hl : linkName c.sellerLinks with
  | some n =>
    rw [hl] at h
    injection h with h1
    rw [← h1]
    exact linkName_ne_empty c.sellerLinks n hl
  | none =>
    rw [hl] at h
    exact patNameGo_ne_empty sellerLits c.text.data s h

lemma optTruthy_name_isSome (c : Node) :
    optTruthy (buildSellerData c).seller_name = (buildSellerData c).seller_name.isSome := by
  cases hn : (buildSellerData c).seller_name with
  | none => rfl
  | some s =>
    have hs : s ≠ "" := offerName_ne_empty c s hn
    simp [optTruthy, hs]

/-- The node of the C7 counterexample: its text contains the dollar amount
"$0.00", whose normalized value 0.0 is falsy in Python. -/
def dollarZeroNode : Node := Node.mk "$0.00" none (fun _ => none) [] false

/-- Counterexample to C7: a container whose extraction stores the price
0.0 and no seller name is dropped by the truthiness test, so "yielded a
price OR a seller name" does not imply acceptance. -/
theorem c7_acceptance_cx :
    (buildSellerData dollarZeroNode).price = PriceResult.num 0 ∧
    (buildSellerData dollarZeroNode).seller_name = none ∧
    extractOne dollarZeroNode = none := by
  have hp : (buildSellerData dollarZeroNode).price =
      PriceResult.num (ratOfRun "0.00".data) := by rfl
  have hv : ratOfRun "0.00".data = 0 := by
    rw [ratOfRun_eval "0.00".data "0".data "00".data 0 0
      (by decide) (by decide) (by decide) (by decide)]
    norm_num
  have hp0 : (buildSellerData dollarZeroNode).price = PriceResult.num 0 := by
    rw [hp, hv]
  have hname : (buildSellerData dollarZeroNode).seller_name = none := by decide
  have hacc : acceptOffer (buildSellerData dollarZeroNode) = false := by
    unfold acceptOffer
    rw [hp0, hname]
    norm_num [pyTruthy, optTruthy]
  refine ⟨hp0, hname, ?_⟩
  unfold extractOne
  rw [hacc]
  rfl

/-- C7 amended: a visited container becomes an OfferRecord exactly when
its record holds a truthy price (non-null and nonzero) or a seller name;
stored names are always non-empty; a container yielding neither
contributes nothing; one yielding only a seller name contributes exactly
its record, whose projected row price is null. -/
theorem c7_acceptance_amended (c : Node) :
    ((extractOne c).isSome =
      (pyTruthy (buildSellerData c).price || (buildSellerData c).seller_name.isSome)) ∧
    (∀ s, (buildSellerData c).seller_name = some s → s ≠ "") ∧
    ((buildSellerData c).price = PriceResult.nil →
      (buildSellerData c).seller_name = none → extractOne c = none) ∧
    (∀ s, (buildSellerData c).price = PriceResult.nil →
      (buildSellerData c).seller_name = some s →
      extractOne c = some (buildSellerData c) ∧
      ∀ (base : Row) (i : Nat),
        (offerRow base i (buildSellerData c)).seller_price = PriceResult.nil) := by
  refine ⟨?_, fun s => offerName_ne_empty c s, ?_, ?_⟩
  · unfold extractOne
    rw [← optTruthy_name_isSome]
    by_cases hacc : acceptOffer (buildSellerData c) = true
    · rw [if_pos hacc]
      unfold acceptOffer at hacc
      rw [hacc]
      rfl
    · rw [if_neg hacc]
      unfold acceptOffer at hacc
      simp only [Option.isSome_none]
      exact (Bool.not_eq_true _ ▸ (by simpa using hacc) : _ = false).symm
  · intro hp hn
    unfold extractOne
    have hacc : acceptOffer (buildSellerData c) = false := by
      unfold acceptOffer
      rw [hp, hn]
      rfl
    rw [hacc]
    rfl
  · intro s hp hn
    have hs : s ≠ "" := offerName_ne_empty c s hn
    have hacc : acceptOffer (buildSellerData c) = true := by
      unfold acceptOffer
      rw [hp, hn]
      simp [pyTruthy, optTruthy, hs]
    refine ⟨?_, ?_⟩
    · unfold extractOne
      rw [hacc]
      simp
    · intro base i
      show (buildSellerData c).price = PriceResult.nil
      exact hp

/-- The node of the C7 witness: only a seller name is extracted. -/
def nameOnlyNode : Node := Node.mk "Sold by Acme Co" none (fun _ => none) [] false

/-- Witness for the amended C7: a name-only container contributes exactly
one record with a null price. -/
theorem c7_acceptance_amended_witness :
    extractOne nameOnlyNode = some (buildSellerData nameOnlyNode) ∧
    (buildSellerData nameOnlyNode).price = PriceResult.nil ∧
    (extractOne nameOnlyNode).isSome = true := by
  have h := (c7_acceptance_amended nameOnlyNode).2.2.2 "Acme" (by decide) (by decide)
  exact ⟨h.1, by decide, by rw [h.1]; rfl⟩

end PriceApp
